import Mathlib

/-!
Shallow embedding of the emojify rendering engine from
`bot/exts/evergreen/emojify/emojify_cog.py`.

Python exceptions are modelled by the `PyError` type, and fallible code
returns `Except PyError _`.  File-system and network access is modelled by
explicit environment parameters: association lists stand for the decoded
JSON configuration files, and a size environment stands for the tile image
files read through PIL.  The constants `EMOJIS` and `REPO_IMG_URLS` come
from a constants module that is not part of the sources, so their contents
are passed as parameters.  Python's `str.lower` is modelled on the ASCII
range by `Char.toLower`, which performs exactly the `A`–`Z` shift the
inputs of interest exercise.
-/

/-- The Python exceptions that can escape the rendering code: plain `dict`
and `list` indexing errors, attribute access on `None`, a missing file,
the `discord` `BadArgument` carrying a message, and the cog's own
`IncompleteConfigurationError`. -/
inductive PyError where
  | keyError (key : String)
  | indexError
  | attributeError
  | fileNotFoundError (path : String)
  | badArgument (msg : String)
  | incompleteConfigurationError (msg : String)
deriving Repr, DecidableEq

/-- One emoji object (`Emoji` class): it only stores the abstract tile
name; the back-pointer to its tileset becomes an explicit argument of the
methods below. -/
structure Emoji where
  name : String
deriving Repr, DecidableEq

/-- A fully populated font instance, as `_emojify`/`_add_letter` use it:
`font_height`, `lowercase_only` and `characters` are the attributes the
font JSON installs via `self.__dict__.update(data)`. -/
structure Font where
  name : String
  font_height : Nat
  lowercase_only : Bool
  characters : List (Char × List (List String))
deriving Repr, DecidableEq

/-- An emoji registered on a Discord guild, as `discord` exposes it:
a name and a numeric ID. -/
structure GuildEmoji where
  name : String
  id : Nat
deriving Repr, DecidableEq

/-- The slice of a `discord.Guild` the cog reads: its ID and its emoji
list. -/
structure Guild where
  id : Nat
  emojis : List GuildEmoji
deriving Repr, DecidableEq

/-- A tileset (`Tileset` class): its name, the repo image URL looked up in
`REPO_IMG_URLS`, the keys of its `emojis` dict (built from the `EMOJIS`
constant; the value under key `k` is always `Emoji.mk k`), and the
per-guild `mappings` dict keyed by the stringified guild ID. -/
structure Tileset where
  name : String
  repo_img_url : String
  emojis : List String
  mappings : List (String × List (String × String))
deriving Repr, DecidableEq

/-- Dict indexing `self.emojis[name]` on a tileset: the value stored under
an `EMOJIS` key is `Emoji.mk` of that key; a missing key raises
`KeyError`. -/
def Tileset.emoji_get (ts : Tileset) (name : String) : Except PyError Emoji :=
  if name ∈ ts.emojis then .ok (Emoji.mk name) else .error (.keyError name)

/-- `Emoji.guild_name`: `self.tileset.mappings[str(guild.id)][self.name]`,
two raw dict lookups each raising `KeyError` when the key is absent. -/
def Emoji.guild_name (e : Emoji) (ts : Tileset) (guild : Guild) : Except PyError String :=
  match ts.mappings.lookup (toString guild.id) with
  | none => .error (.keyError (toString guild.id))
  | some m =>
    match m.lookup e.name with
    | none => .error (.keyError e.name)
    | some n => .ok n

/-- `Emoji.emoji_id`: `discord.utils.get(guild.emojis, name=...).id`.
`discord.utils.get` returns the first element with the requested name or
`None`; reading `.id` off `None` raises `AttributeError`. -/
def Emoji.emoji_id (e : Emoji) (ts : Tileset) (guild : Guild) : Except PyError Nat := do
  let gn ← e.guild_name ts guild
  match guild.emojis.find? (fun ge => ge.name == gn) with
  | none => .error .attributeError
  | some ge => .ok ge.id

/-- `Emoji.emoji`: formats the render token `<:name:id>`.  The source's
`else None` branch is unreachable because `emoji_id` either returns an
integer or raises. -/
def Emoji.emoji (e : Emoji) (ts : Tileset) (guild : Guild) : Except PyError String := do
  let i ← e.emoji_id ts guild
  .ok ("<:" ++ e.name ++ ":" ++ toString i ++ ">")

/-- Replacement of the binding under key `k` in an association list,
modelling Python dict assignment `d[k] = v`. -/
def dictSet {α β : Type} [BEq α] (d : List (α × β)) (k : α) (v : β) : List (α × β) :=
  (k, v) :: d.eraseP (fun p => p.1 == k)

/-- `Tileset.load_guild_mappings`: opens
`tileset_config/{guild.id}/{name}.json` — `FileNotFoundError` when the
file is absent — and stores the decoded mapping under the stringified
guild ID.  The configuration directory is passed as an association list
keyed by (guild ID string, tileset name). -/
def Tileset.load_guild_mappings (config : List ((String × String) × List (String × String)))
    (ts : Tileset) (guild : Guild) : Except PyError Tileset :=
  match config.lookup (toString guild.id, ts.name) with
  | none => .error (.fileNotFoundError (toString guild.id ++ "/" ++ ts.name ++ ".json"))
  | some m => .ok { ts with mappings := dictSet ts.mappings (toString guild.id) m }

/-- `Tileset.__init__`: looks the tileset name up in `REPO_IMG_URLS`
(raw dict indexing, `KeyError` when absent), builds the `emojis` dict from
the `EMOJIS` constant, and when a guild is given loads its mapping file.
The two module constants and the configuration directory are passed as
parameters. -/
def Tileset.init (repo_img_urls : List (String × String)) (emoji_names : List String)
    (config : List ((String × String) × List (String × String)))
    (name : String) (guild : Option Guild) : Except PyError Tileset :=
  match repo_img_urls.lookup name with
  | none => .error (.keyError name)
  | some url =>
    let ts : Tileset :=
      { name := name, repo_img_url := url, emojis := emoji_names, mappings := [] }
    match guild with
    | none => .ok ts
    | some g => Tileset.load_guild_mappings config ts g

/-- `Tileset.to_mapping`: row by row, element by element, replaces each
emoji with `self.emojis[emoji.name].emoji(guild)`; the first raised
exception aborts the whole conversion. -/
def Tileset.to_mapping (ts : Tileset) (input_list : List (List Emoji)) (guild : Guild) :
    Except PyError (List (List String)) :=
  input_list.mapM (fun row => row.mapM (fun e => do
    let em ← ts.emoji_get e.name
    em.emoji ts guild))

/-- The observable geometry of the PIL image `Tileset.to_image` builds:
mode and background of the allocated canvas, its pixel dimensions, and the
list of paste operations (tile name, x offset, y offset).  Pixel contents
of the tile files are abstracted away; their dimensions come from the size
environment. -/
structure RenderedImage where
  mode : String
  width : Nat
  height : Nat
  background : Nat × Nat × Nat × Nat
  pastes : List (String × Nat × Nat)
deriving Repr, DecidableEq

/-- `Tileset.to_image`: reads `input_list[0]` and `input_list[0][0]`
unguarded (`IndexError` on an empty grid or empty first row), takes
`tiles_wide` from the first row's length, `tile_size` from the first
tile's image width, allocates an RGBA canvas of
`(tiles_wide*tile_size, tiles_high*tile_size)` with transparent
background, and pastes tile (r, c) at `(c*tile_size, r*tile_size)`.
The size environment maps an emoji name to its image's (width, height). -/
def Tileset.to_image (size : String → Nat × Nat) (input_list : List (List Emoji)) :
    Except PyError RenderedImage :=
  match input_list[0]? with
  | none => .error .indexError
  | some row0 =>
    match row0[0]? with
    | none => .error .indexError
    | some first =>
      let tiles_wide := row0.length
      let tiles_high := input_list.length
      let tile_size := (size first.name).1
      .ok { mode := "RGBA"
            width := tiles_wide * tile_size
            height := tiles_high * tile_size
            background := (0, 0, 0, 0)
            pastes := input_list.enum.flatMap (fun p =>
              p.2.enum.map (fun q => (q.2.name, q.1 * tile_size, p.1 * tile_size))) }

/-- A Python value as `_flatten_list` sees it: a string or a nested
list. -/
inductive PyVal where
  | str (s : String)
  | list (xs : List PyVal)
deriving Repr

/-- `Emojify._flatten_list`: walks the list, splicing in the flattening of
every sublist followed by a newline and appending every string element
verbatim, then joins everything into one string. -/
def Emojify.flatten_list : List PyVal → String
  | [] => ""
  | .list xs :: rest => Emojify.flatten_list xs ++ "\n" ++ Emojify.flatten_list rest
  | .str s :: rest => s ++ Emojify.flatten_list rest

/-- View of a grid of render tokens as the Python list of lists of strings
that `_flatten_list` receives. -/
def gridToPy (rows : List (List String)) : List PyVal :=
  rows.map (fun row => PyVal.list (row.map PyVal.str))

/-- The message of the `BadArgument` that `_add_letter` raises for a
letter the font has no (non-empty) entry for. -/
def Emojify.unsupported_msg (font : Font) (letter : Char) : String :=
  "The character `" ++ String.singleton letter ++ "` is not supported by the font " ++ font.name

/-- The inner loop of `_add_letter` for one font row: appends, piece by
piece, `tileset.emojis[piece]` to `emoji_list[row]`.  Each step first
indexes `emoji_list[row]` (`IndexError` out of range) and then the
tileset's emoji dict (`KeyError` for an unregistered piece). -/
def Emojify.append_pieces (ts : Tileset) (row : Nat) :
    List (List Emoji) → List String → Except PyError (List (List Emoji))
  | grid, [] => .ok grid
  | grid, piece :: rest =>
    match grid[row]? with
    | none => .error .indexError
    | some r =>
      match ts.emoji_get piece with
      | .error e => .error e
      | .ok em => Emojify.append_pieces ts row (grid.set row (r ++ [em])) rest

/-- One iteration of `_add_letter`'s row loop: re-evaluates
`font.characters.get(letter)`, raises `BadArgument` when the result is
falsy (`None` for a missing letter, or an empty grid), indexes the
letter's grid at the current row (`IndexError` past its end), then appends
the row's pieces. -/
def Emojify.add_letter_row (font : Font) (ts : Tileset) (grid : List (List Emoji))
    (letter : Char) (row : Nat) : Except PyError (List (List Emoji)) :=
  match font.characters.lookup letter with
  | none => .error (.badArgument (Emojify.unsupported_msg font letter))
  | some [] => .error (.badArgument (Emojify.unsupported_msg font letter))
  | some letter_data =>
    match letter_data[row]? with
    | none => .error .indexError
    | some pieces => Emojify.append_pieces ts row grid pieces

/-- `Emojify._add_letter`: runs the row loop for
`row in range(font.font_height)`, threading the mutated `emoji_list`. -/
def Emojify.add_letter (font : Font) (ts : Tileset) (grid : List (List Emoji))
    (letter : Char) : Except PyError (List (List Emoji)) :=
  (List.range font.font_height).foldlM
    (fun g row => Emojify.add_letter_row font ts g letter row) grid

/-- `Emojify._emojify`: starts from `font.font_height` empty rows,
case-folds the text when `font.lowercase_only`, and adds the letters one
by one. -/
def Emojify.emojify (font : Font) (ts : Tileset) (text : List Char) :
    Except PyError (List (List Emoji)) :=
  let text := if font.lowercase_only then text.map Char.toLower else text
  text.foldlM (fun g letter => Emojify.add_letter font ts g letter)
    (List.replicate font.font_height [])

/-- The decoded JSON of a font asset, with the recognised keys optional:
`self.__dict__.update(data)` installs exactly the keys the JSON has, so a
key the file omits simply leaves the attribute missing. -/
structure FontData where
  font_height : Option Nat
  lowercase_only : Option Bool
  characters : Option (List (Char × List (List String)))
deriving Repr, DecidableEq

/-- A font object right after `Font.load`: the name set by `__init__`
plus whatever attributes the JSON happened to contain. -/
structure LoadedFont where
  name : String
  font_height : Option Nat
  lowercase_only : Option Bool
  characters : Option (List (Char × List (List String)))
deriving Repr, DecidableEq

/-- `Font.load`: opens `fonts/{name}.json` (`FileNotFoundError` when the
file is absent) and copies the decoded keys onto the instance via
`self.__dict__.update(data)` — no key is required and nothing is
validated.  The font directory is passed as an association list from font
name to decoded JSON. -/
def Font.load (fonts : List (String × FontData)) (name : String) :
    Except PyError LoadedFont :=
  match fonts.lookup name with
  | none => .error (.fileNotFoundError (name ++ ".json"))
  | some d =>
    .ok { name := name, font_height := d.font_height,
          lowercase_only := d.lowercase_only, characters := d.characters }

/-- The case fold `_emojify` applies to a single character when
`font.lowercase_only` is set. -/
def Emojify.fold_char (font : Font) (c : Char) : Char :=
  if font.lowercase_only then c.toLower else c

/-- The text `_emojify` actually iterates over: the input, case-folded
when `font.lowercase_only` is set. -/
def Emojify.folded (font : Font) (text : List Char) : List Char :=
  if font.lowercase_only then text.map Char.toLower else text

/-- The sub-grid of emoji objects one letter contributes: the first
`font.font_height` rows of the letter's tile-name grid, each name replaced
by its emoji object. -/
def Emojify.letter_block (font : Font) (letter : Char) : List (List Emoji) :=
  (((font.characters.lookup letter).getD []).take font.font_height).map
    (fun row => row.map Emoji.mk)

/-- A letter `_add_letter` can process without raising: the font has an
entry for it, the entry reaches down to `font.font_height` rows, and every
tile name in those rows is registered in the tileset's emoji dict. -/
def Emojify.supported_letter (font : Font) (ts : Tileset) (letter : Char) : Prop :=
  font.characters.lookup letter ≠ none ∧
  font.font_height ≤ ((font.characters.lookup letter).getD []).length ∧
  ∀ j < font.font_height,
    ∀ p ∈ ((font.characters.lookup letter).getD []).getD j [], p ∈ ts.emojis

instance supported_letter_decidable (font : Font) (ts : Tileset) (letter : Char) :
    Decidable (Emojify.supported_letter font ts letter) :=
  inferInstanceAs (Decidable (font.characters.lookup letter ≠ none ∧
    font.font_height ≤ ((font.characters.lookup letter).getD []).length ∧
    ∀ j < font.font_height,
      ∀ p ∈ ((font.characters.lookup letter).getD []).getD j [], p ∈ ts.emojis))

/-- A two-letter demo font used by the concrete witnesses. -/
def demoFont : Font :=
  { name := "demo", font_height := 2, lowercase_only := false,
    characters := [('a', [["x"], ["y", "y"]]), ('b', [["y"], ["x", "x"]])] }

/-- The demo font with the lowercase-only flag set. -/
def demoLowerFont : Font :=
  { demoFont with name := "demolower", lowercase_only := true }

/-- A demo tileset registering the two tile names the demo font uses. -/
def demoTileset : Tileset :=
  { name := "t", repo_img_url := "u", emojis := ["x", "y"], mappings := [] }

/-- A guild fixture with ID 1 and no registered emojis. -/
def demoGuild : Guild := { id := 1, emojis := [] }

/-- A tileset whose guild-1 mapping exists but lacks an entry for the tile
name `blank`. -/
def unmappedTileset : Tileset :=
  { name := "t", repo_img_url := "u", emojis := ["blank"], mappings := [("1", [])] }

/-- A tileset whose guild-1 mapping sends `blank` to the guild emoji name
`pyblank`. -/
def mappedTileset : Tileset :=
  { name := "t", repo_img_url := "u", emojis := ["blank"],
    mappings := [("1", [("blank", "pyblank")])] }

/-- A guild fixture with ID 1 carrying the emoji `pyblank` under ID 5. -/
def mappedGuild : Guild := { id := 1, emojis := [{ name := "pyblank", id := 5 }] }

/-- A ragged demo grid: one tile in the first row, three in the second. -/
def raggedGrid : List (List Emoji) :=
  [[Emoji.mk "blank"], [Emoji.mk "blank", Emoji.mk "blank", Emoji.mk "blank"]]

/-- A size environment in which every tile image is 3×3 pixels. -/
def size3 : String → Nat × Nat := fun _ => (3, 3)

theorem set_eq_self_of_getElem? {α : Type} {l : List α} {n : Nat} {a : α}
    (h : l[n]? = some a) : l.set n a = l := by
  obtain ⟨hlt, hget⟩ := List.getElem?_eq_some.mp h
  apply List.ext_getElem?
  intro j
  rw [List.getElem?_set]
  by_cases hij : n = j
  · subst hij
    rw [if_pos rfl, if_pos hlt, h]
  · rw [if_neg hij]

theorem append_pieces_ok (ts : Tileset) (row : Nat) (pieces : List String) :
    ∀ (grid : List (List Emoji)) (r : List Emoji), grid[row]? = some r →
    (∀ p ∈ pieces, p ∈ ts.emojis) →
    Emojify.append_pieces ts row grid pieces =
      .ok (grid.set row (r ++ pieces.map Emoji.mk)) := by
  induction pieces with
  | nil =>
    intro grid r hr _
    simp [Emojify.append_pieces, set_eq_self_of_getElem? hr]
  | cons p rest ih =>
    intro grid r hr hmem
    have hrow : row < grid.length := (List.getElem?_eq_some.mp hr).1
    have hp : p ∈ ts.emojis := hmem p (List.mem_cons_self p rest)
    rw [Emojify.append_pieces, hr]
    simp only [Tileset.emoji_get, if_pos hp]
    rw [ih (grid.set row (r ++ [Emoji.mk p])) (r ++ [Emoji.mk p])
      (List.getElem?_set_self hrow)
      (fun q hq => hmem q (List.mem_cons_of_mem p hq))]
    rw [List.set_set]
    simp

theorem add_letter_row_ok (font : Font) (ts : Tileset) {letter : Char}
    {g : List (List String)} {pieces : List String} {grid : List (List Emoji)}
    {r : List Emoji} {row : Nat}
    (hc : font.characters.lookup letter = some g)
    (hrowg : g[row]? = some pieces)
    (hr : grid[row]? = some r)
    (hmem : ∀ p ∈ pieces, p ∈ ts.emojis) :
    Emojify.add_letter_row font ts grid letter row =
      .ok (grid.set row (r ++ pieces.map Emoji.mk)) := by
  cases g with
  | nil => simp at hrowg
  | cons a as =>
    simp only [Emojify.add_letter_row, hc, hrowg]
    exact append_pieces_ok ts row pieces grid r hr hmem

theorem except_ok_bind {ε α β : Type} (a : α) (f : α → Except ε β) :
    (Except.ok a : Except ε α) >>= f = f a := rfl

theorem char_toNat_ofNat_valid (n : Nat) (h : n.isValidChar) : (Char.ofNat n).toNat = n := by
  rw [Char.ofNat, dif_pos h]
  simp [Char.ofNatAux, Char.toNat, UInt32.ofNat', UInt32.toNat, BitVec.toNat_ofNatLt]

theorem char_toLower_idem (c : Char) : c.toLower.toLower = c.toLower := by
  unfold Char.toLower
  by_cases h : c.toNat ≥ 65 ∧ c.toNat ≤ 90
  · rw [if_pos h]
    have hv : (c.toNat + 32).isValidChar := by
      left
      omega
    have := char_toNat_ofNat_valid (c.toNat + 32) hv
    rw [if_neg]
    omega
  · rw [if_neg h, if_neg h]

theorem add_letter_missing (font : Font) (ts : Tileset)
    (grid : List (List Emoji)) (letter : Char)
    (hh : 0 < font.font_height)
    (hc : font.characters.lookup letter = none) :
    Emojify.add_letter font ts grid letter =
      .error (.badArgument (Emojify.unsupported_msg font letter)) := by
  unfold Emojify.add_letter
  obtain ⟨n, hn⟩ := Nat.exists_eq_add_of_lt hh
  rw [List.range_eq_range']
  rw [show font.font_height = n + 1 by omega]
  rw [List.range'_succ]
  rw [List.foldlM_cons]
  have hstep : Emojify.add_letter_row font ts grid letter 0 =
      .error (.badArgument (Emojify.unsupported_msg font letter)) := by
    simp only [Emojify.add_letter_row, hc]
  rw [hstep]
  rfl

theorem add_letter_range (font : Font) (ts : Tileset) (letter : Char)
    (g : List (List String))
    (hc : font.characters.lookup letter = some g) :
    ∀ (n i : Nat) (grid : List (List Emoji)),
    i + n ≤ g.length → i + n ≤ grid.length →
    (∀ j, i ≤ j → j < i + n → ∀ p ∈ g.getD j [], p ∈ ts.emojis) →
    ∃ grid', (List.range' i n).foldlM
        (fun gr row => Emojify.add_letter_row font ts gr letter row) grid = .ok grid' ∧
      grid'.length = grid.length ∧
      ∀ j, grid'[j]? = if i ≤ j ∧ j < i + n
        then (grid[j]?).map (fun r => r ++ (g.getD j []).map Emoji.mk)
        else grid[j]? := by
  intro n
  induction n with
  | zero =>
    intro i grid _ _ _
    refine ⟨grid, ?_, rfl, ?_⟩
    · rw [List.range'_zero]
      rfl
    · intro j
      rw [if_neg (by omega)]
  | succ n ih =>
    intro i grid hg hgrid hmap
    have hig : i < g.length := by omega
    have higrid : i < grid.length := by omega
    have hgi : g[i]? = some (g.getD i []) := by
      rw [List.getD_eq_getElem?_getD, List.getElem?_eq_getElem hig]
      rfl
    have hgridi : grid[i]? = some (grid.getD i []) := by
      rw [List.getD_eq_getElem?_getD, List.getElem?_eq_getElem higrid]
      rfl
    have hstep := add_letter_row_ok font ts hc hgi hgridi
      (hmap i (Nat.le_refl i) (by omega))
    rw [List.range'_succ, List.foldlM_cons, hstep, except_ok_bind]
    obtain ⟨grid', hfold, hlen, hpt⟩ := ih (i + 1)
      (grid.set i (grid.getD i [] ++ (g.getD i []).map Emoji.mk))
      (by omega) (by rw [List.length_set]; omega)
      (fun j h1 h2 => hmap j (by omega) (by omega))
    refine ⟨grid', hfold, by rw [hlen, List.length_set], ?_⟩
    intro j
    rw [hpt j]
    by_cases hj1 : i + 1 ≤ j ∧ j < i + 1 + n
    · rw [if_pos hj1, if_pos (show i ≤ j ∧ j < i + (n + 1) by omega)]
      rw [List.getElem?_set_ne (show i ≠ j by omega)]
    · rw [if_neg hj1]
      by_cases hj0 : j = i
      · subst hj0
        rw [if_pos ⟨Nat.le_refl j, by omega⟩]
        rw [List.getElem?_set_self higrid, hgridi]
        rfl
      · rw [if_neg (by omega)]
        exact List.getElem?_set_ne (fun h => hj0 h.symm)

theorem letter_block_length (font : Font) (ts : Tileset) (letter : Char)
    (hgood : Emojify.supported_letter font ts letter) :
    (Emojify.letter_block font letter).length = font.font_height := by
  obtain ⟨_, hlg, _⟩ := hgood
  unfold Emojify.letter_block
  rw [List.length_map, List.length_take]
  exact Nat.min_eq_left hlg

theorem add_letter_ok (font : Font) (ts : Tileset) (letter : Char)
    (grid : List (List Emoji))
    (hgood : Emojify.supported_letter font ts letter)
    (hlen : grid.length = font.font_height) :
    Emojify.add_letter font ts grid letter =
      .ok (List.zipWith (· ++ ·) grid (Emojify.letter_block font letter)) := by
  obtain ⟨hne, hlg, hmap⟩ := hgood
  obtain ⟨g, hc⟩ : ∃ g, font.characters.lookup letter = some g := by
    cases h : font.characters.lookup letter with
    | none => exact absurd h hne
    | some g => exact ⟨g, rfl⟩
  rw [hc] at hlg hmap
  simp only [Option.getD_some] at hlg hmap
  obtain ⟨grid', hfold, hlen', hpt⟩ :=
    add_letter_range font ts letter g hc font.font_height 0 grid
      (by omega) (by omega)
      (fun j _ hj => hmap j (by omega))
  unfold Emojify.add_letter
  rw [List.range_eq_range', hfold]
  congr 1
  apply List.ext_getElem?
  intro j
  rw [hpt j, List.getElem?_zipWith]
  by_cases hj : j < font.font_height
  · rw [if_pos ⟨Nat.zero_le j, by omega⟩]
    have hjgrid : grid[j]? = some (grid.getD j []) := by
      rw [List.getD_eq_getElem?_getD, List.getElem?_eq_getElem (by omega)]
      rfl
    have hblock : (Emojify.letter_block font letter)[j]? =
        some ((g.getD j []).map Emoji.mk) := by
      unfold Emojify.letter_block
      rw [hc]
      simp only [Option.getD_some]
      rw [List.getElem?_map, List.getElem?_take, if_pos hj]
      rw [List.getD_eq_getElem?_getD, List.getElem?_eq_getElem (by omega)]
      rfl
    rw [hjgrid, hblock]
    rfl
  · rw [if_neg (by omega)]
    have hnone : grid[j]? = none := by
      rw [List.getElem?_eq_none]
      omega
    rw [hnone]

theorem zipWith_append_left_id {α : Type} (b : List (List α)) :
    ∀ n, b.length = n →
    List.zipWith (· ++ ·) (List.replicate n ([] : List α)) b = b := by
  induction b with
  | nil =>
    intro n _
    simp
  | cons x xs ih =>
    intro n hn
    cases n with
    | zero => simp at hn
    | succ m =>
      rw [List.replicate_succ]
      simp only [List.zipWith_cons_cons, List.nil_append]
      rw [ih m (by simpa using hn)]

theorem zipWith_append_right_id {α : Type} (a : List (List α)) :
    ∀ n, a.length = n →
    List.zipWith (· ++ ·) a (List.replicate n ([] : List α)) = a := by
  induction a with
  | nil =>
    intro n _
    simp
  | cons x xs ih =>
    intro n hn
    cases n with
    | zero => simp at hn
    | succ m =>
      rw [List.replicate_succ]
      simp only [List.zipWith_cons_cons, List.append_nil]
      rw [ih m (by simpa using hn)]

theorem zipWith_append_assoc {α : Type} (a : List (List α)) :
    ∀ b c : List (List α),
    List.zipWith (· ++ ·) (List.zipWith (· ++ ·) a b) c =
      List.zipWith (· ++ ·) a (List.zipWith (· ++ ·) b c) := by
  induction a with
  | nil =>
    intro b c
    simp
  | cons x xs ih =>
    intro b c
    cases b with
    | nil => simp
    | cons y ys =>
      cases c with
      | nil => simp
      | cons z zs =>
        simp only [List.zipWith_cons_cons, List.append_assoc]
        rw [ih ys zs]

theorem emojify_eq_foldlM (font : Font) (ts : Tileset) (text : List Char) :
    Emojify.emojify font ts text =
      (Emojify.folded font text).foldlM
        (fun g letter => Emojify.add_letter font ts g letter)
        (List.replicate font.font_height []) := rfl

theorem folded_append (font : Font) (t1 t2 : List Char) :
    Emojify.folded font (t1 ++ t2) =
      Emojify.folded font t1 ++ Emojify.folded font t2 := by
  cases hb : font.lowercase_only <;> simp [Emojify.folded, hb]

theorem folded_single (font : Font) (c : Char) :
    Emojify.folded font [c] = [Emojify.fold_char font c] := by
  cases hb : font.lowercase_only <;> simp [Emojify.folded, Emojify.fold_char, hb]

theorem emojify_fold_ok (font : Font) (ts : Tileset) (letters : List Char) :
    ∀ grid : List (List Emoji), grid.length = font.font_height →
    (∀ c ∈ letters, Emojify.supported_letter font ts c) →
    letters.foldlM (fun gr letter => Emojify.add_letter font ts gr letter) grid =
      .ok (letters.foldl
        (fun acc c => List.zipWith (· ++ ·) acc (Emojify.letter_block font c)) grid) := by
  induction letters with
  | nil =>
    intro grid _ _
    rfl
  | cons c cs ih =>
    intro grid hlen hall
    have hc := hall c (List.mem_cons_self c cs)
    rw [List.foldlM_cons, add_letter_ok font ts c grid hc hlen, except_ok_bind,
      List.foldl_cons]
    exact ih _
      (by rw [List.length_zipWith, hlen, letter_block_length font ts c hc]
          exact Nat.min_self _)
      (fun d hd => hall d (List.mem_cons_of_mem c hd))

theorem emojify_ok (font : Font) (ts : Tileset) (text : List Char)
    (hall : ∀ c ∈ Emojify.folded font text, Emojify.supported_letter font ts c) :
    Emojify.emojify font ts text =
      .ok ((Emojify.folded font text).foldl
        (fun acc c => List.zipWith (· ++ ·) acc (Emojify.letter_block font c))
        (List.replicate font.font_height [])) := by
  rw [emojify_eq_foldlM]
  exact emojify_fold_ok font ts (Emojify.folded font text) _
    (List.length_replicate _ _) hall

theorem foldl_blocks_length (font : Font) (ts : Tileset) (letters : List Char) :
    (∀ c ∈ letters, Emojify.supported_letter font ts c) →
    ∀ grid : List (List Emoji), grid.length = font.font_height →
    (letters.foldl
      (fun acc c => List.zipWith (· ++ ·) acc (Emojify.letter_block font c))
      grid).length = font.font_height := by
  induction letters with
  | nil =>
    intro _ grid hlen
    exact hlen
  | cons c cs ih =>
    intro hall grid hlen
    rw [List.foldl_cons]
    exact ih (fun d hd => hall d (List.mem_cons_of_mem c hd)) _
      (by rw [List.length_zipWith, hlen,
            letter_block_length font ts c (hall c (List.mem_cons_self c cs))]
          exact Nat.min_self _)

theorem foldl_blocks_shift (font : Font) (ts : Tileset) (letters : List Char) :
    (∀ c ∈ letters, Emojify.supported_letter font ts c) →
    ∀ grid : List (List Emoji), grid.length = font.font_height →
    letters.foldl
        (fun acc c => List.zipWith (· ++ ·) acc (Emojify.letter_block font c)) grid =
      List.zipWith (· ++ ·) grid
        (letters.foldl
          (fun acc c => List.zipWith (· ++ ·) acc (Emojify.letter_block font c))
          (List.replicate font.font_height [])) := by
  induction letters with
  | nil =>
    intro _ grid hlen
    rw [List.foldl_nil, List.foldl_nil]
    exact (zipWith_append_right_id grid font.font_height hlen).symm
  | cons c cs ih =>
    intro hall grid hlen
    have hbc : (Emojify.letter_block font c).length = font.font_height :=
      letter_block_length font ts c (hall c (List.mem_cons_self c cs))
    have hall' := fun d hd => hall d (List.mem_cons_of_mem c hd)
    rw [List.foldl_cons, List.foldl_cons]
    rw [ih hall' (List.zipWith (· ++ ·) grid (Emojify.letter_block font c))
      (by rw [List.length_zipWith, hlen, hbc]
          exact Nat.min_self _)]
    rw [zipWith_append_left_id (Emojify.letter_block font c) font.font_height hbc]
    rw [ih hall' (Emojify.letter_block font c) hbc]
    exact zipWith_append_assoc grid _ _

theorem emojify_fold_first_missing (font : Font) (ts : Tileset)
    (hh : 0 < font.font_height) (letters : List Char) :
    ∀ grid : List (List Emoji), grid.length = font.font_height →
    (∀ c ∈ letters,
      Emojify.supported_letter font ts c ∨ font.characters.lookup c = none) →
    (∃ c ∈ letters, font.characters.lookup c = none) →
    ∃ c ∈ letters, font.characters.lookup c = none ∧
      letters.foldlM (fun gr letter => Emojify.add_letter font ts gr letter) grid =
        .error (.badArgument (Emojify.unsupported_msg font c)) := by
  induction letters with
  | nil =>
    intro grid _ _ hbad
    obtain ⟨c, hc, _⟩ := hbad
    exact absurd hc (List.not_mem_nil c)
  | cons c cs ih =>
    intro grid hlen hsplit hbad
    rcases hsplit c (List.mem_cons_self c cs) with hgood | hnone
    · have hbad' : ∃ d ∈ cs, font.characters.lookup d = none := by
        obtain ⟨d, hd, hdn⟩ := hbad
        rcases List.mem_cons.mp hd with rfl | hdcs
        · obtain ⟨hne, _, _⟩ := hgood
          exact absurd hdn hne
        · exact ⟨d, hdcs, hdn⟩
      rw [List.foldlM_cons, add_letter_ok font ts c grid hgood hlen, except_ok_bind]
      obtain ⟨d, hd, hdn, hfold⟩ := ih
        (List.zipWith (· ++ ·) grid (Emojify.letter_block font c))
        (by rw [List.length_zipWith, hlen, letter_block_length font ts c hgood]
            exact Nat.min_self _)
        (fun d hd => hsplit d (List.mem_cons_of_mem c hd)) hbad'
      exact ⟨d, List.mem_cons_of_mem c hd, hdn, hfold⟩
    · refine ⟨c, List.mem_cons_self c cs, hnone, ?_⟩
      rw [List.foldlM_cons, add_letter_missing font ts grid c hh hnone]
      rfl

/-- C1: for a supported character `c` of font `F` (its grid reaching down
to `F.font_height` rows, every referenced tile registered in the resolved
tileset), `_emojify` on the one-character text returns a grid with exactly
`F.font_height` rows whose row `r` has as many tiles as row `r` of
`F.characters[c]`. -/
theorem emojify_single_char_shape (font : Font) (ts : Tileset) (c : Char)
    (g : List (List String))
    (hc : font.characters.lookup (Emojify.fold_char font c) = some g)
    (hlen : font.font_height ≤ g.length)
    (hmap : ∀ j < font.font_height, ∀ p ∈ g.getD j [], p ∈ ts.emojis) :
    ∃ grid, Emojify.emojify font ts [c] = .ok grid ∧
      grid.length = font.font_height ∧
      ∀ r < font.font_height,
        (grid.getD r []).length = (g.getD r []).length := by
  have hgood : Emojify.supported_letter font ts (Emojify.fold_char font c) := by
    unfold Emojify.supported_letter
    rw [hc]
    simp only [Option.getD_some]
    exact ⟨Option.some_ne_none g, hlen, hmap⟩
  have hbl := letter_block_length font ts (Emojify.fold_char font c) hgood
  have hrow : ∀ r, r < font.font_height →
      (Emojify.letter_block font (Emojify.fold_char font c)).getD r [] =
        (g.getD r []).map Emoji.mk := by
    intro r hr
    rw [List.getD_eq_getElem?_getD]
    unfold Emojify.letter_block
    rw [hc]
    simp only [Option.getD_some]
    rw [List.getElem?_map, List.getElem?_take, if_pos hr]
    rw [List.getD_eq_getElem?_getD, List.getElem?_eq_getElem (by omega)]
    rfl
  refine ⟨Emojify.letter_block font (Emojify.fold_char font c), ?_, hbl, ?_⟩
  · rw [emojify_ok font ts [c]
      (by rw [folded_single]
          intro d hd
          rw [List.mem_singleton.mp hd]
          exact hgood)]
    congr 1
    rw [folded_single, List.foldl_cons, List.foldl_nil]
    exact zipWith_append_left_id _ font.font_height hbl
  · intro r hr
    rw [hrow r hr, List.length_map]

theorem emojify_single_char_shape_witness :
    demoFont.characters.lookup (Emojify.fold_char demoFont 'a') =
      some [["x"], ["y", "y"]] ∧
    (∃ grid, Emojify.emojify demoFont demoTileset ['a'] = .ok grid ∧
      grid.length = demoFont.font_height ∧
      ∀ r < demoFont.font_height,
        (grid.getD r []).length =
          (([["x"], ["y", "y"]] : List (List String)).getD r []).length) :=
  ⟨by decide, emojify_single_char_shape demoFont demoTileset 'a' [["x"], ["y", "y"]]
    (by decide) (by decide) (by decide)⟩

/-- C2: when every (folded) character of `t1` and of `t2` is supported,
`_emojify (t1 ++ t2)` succeeds and equals the row-wise concatenation of
`_emojify t1` and `_emojify t2`: each row of the second grid is appended
to the corresponding row of the first. -/
theorem emojify_concat_rows (font : Font) (ts : Tileset) (t1 t2 : List Char)
    (h1 : ∀ c ∈ Emojify.folded font t1, Emojify.supported_letter font ts c)
    (h2 : ∀ c ∈ Emojify.folded font t2, Emojify.supported_letter font ts c) :
    ∃ g1 g2, Emojify.emojify font ts t1 = .ok g1 ∧
      Emojify.emojify font ts t2 = .ok g2 ∧
      Emojify.emojify font ts (t1 ++ t2) = .ok (List.zipWith (· ++ ·) g1 g2) := by
  have h12 : ∀ c ∈ Emojify.folded font (t1 ++ t2),
      Emojify.supported_letter font ts c := by
    rw [folded_append]
    intro c hc
    rcases List.mem_append.mp hc with h | h
    · exact h1 c h
    · exact h2 c h
  refine ⟨_, _, emojify_ok font ts t1 h1, emojify_ok font ts t2 h2, ?_⟩
  rw [emojify_ok font ts (t1 ++ t2) h12]
  congr 1
  rw [folded_append, List.foldl_append]
  exact foldl_blocks_shift font ts (Emojify.folded font t2) h2 _
    (foldl_blocks_length font ts (Emojify.folded font t1) h1 _
      (List.length_replicate _ _))

theorem emojify_concat_rows_witness :
    ∃ g1 g2, Emojify.emojify demoFont demoTileset ['a'] = .ok g1 ∧
      Emojify.emojify demoFont demoTileset ['b'] = .ok g2 ∧
      Emojify.emojify demoFont demoTileset (['a'] ++ ['b']) =
        .ok (List.zipWith (· ++ ·) g1 g2) :=
  emojify_concat_rows demoFont demoTileset ['a'] ['b'] (by decide) (by decide)

/-- C3: for a font with the lowercase-only flag set, `_emojify` case-folds
the input before lookup, so `"A"` and `"a"` expand to the same grid, and in
general any text expands like its lowercase form. -/
theorem emojify_case_insensitive (font : Font) (ts : Tileset)
    (hlc : font.lowercase_only = true) :
    Emojify.emojify font ts ['A'] = Emojify.emojify font ts ['a'] ∧
    ∀ text : List Char,
      Emojify.emojify font ts text =
        Emojify.emojify font ts (text.map Char.toLower) := by
  have hfold : ∀ text : List Char,
      Emojify.folded font text = text.map Char.toLower := by
    intro text
    simp [Emojify.folded, hlc]
  have key : ∀ text : List Char,
      Emojify.emojify font ts text =
        Emojify.emojify font ts (text.map Char.toLower) := by
    intro text
    rw [emojify_eq_foldlM, emojify_eq_foldlM, hfold, hfold, List.map_map]
    rw [show Char.toLower ∘ Char.toLower = Char.toLower from funext char_toLower_idem]
  constructor
  · have h1 := key ['A']
    rw [show (['A'].map Char.toLower) = ['a'] from by decide] at h1
    exact h1
  · exact key

theorem emojify_case_insensitive_witness :
    demoLowerFont.lowercase_only = true ∧
    Emojify.emojify demoLowerFont demoTileset ['A'] =
      Emojify.emojify demoLowerFont demoTileset ['a'] :=
  ⟨by decide, (emojify_case_insensitive demoLowerFont demoTileset (by decide)).1⟩

/-- C4: when the folded text contains a character absent from
`font.characters` and every other character is supported, `_emojify`
returns no grid: it fails with the `BadArgument` whose message names the
offending character and the font (provided the font height is positive, so
that the per-row check actually runs). -/
theorem emojify_unsupported_char (font : Font) (ts : Tileset) (text : List Char)
    (hh : 0 < font.font_height)
    (hsplit : ∀ c ∈ Emojify.folded font text,
      Emojify.supported_letter font ts c ∨ font.characters.lookup c = none)
    (hbad : ∃ c ∈ Emojify.folded font text, font.characters.lookup c = none) :
    ∃ c ∈ Emojify.folded font text, font.characters.lookup c = none ∧
      Emojify.emojify font ts text =
        .error (.badArgument
          ("The character `" ++ String.singleton c ++
            "` is not supported by the font " ++ font.name)) := by
  obtain ⟨c, hc, hcn, hfold⟩ := emojify_fold_first_missing font ts hh
    (Emojify.folded font text) _ (List.length_replicate _ _) hsplit hbad
  refine ⟨c, hc, hcn, ?_⟩
  rw [emojify_eq_foldlM, hfold]
  rfl

theorem emojify_unsupported_char_witness :
    (0 : Nat) < demoFont.font_height ∧
    (∃ c ∈ Emojify.folded demoFont ['a', 'z'],
      demoFont.characters.lookup c = none ∧
      Emojify.emojify demoFont demoTileset ['a', 'z'] =
        .error (.badArgument
          ("The character `" ++ String.singleton c ++
            "` is not supported by the font " ++ demoFont.name))) :=
  ⟨by decide, emojify_unsupported_char demoFont demoTileset ['a', 'z']
    (by decide) (by decide) (by decide)⟩

theorem string_foldl_append (l : List String) :
    ∀ a : String, l.foldl (· ++ ·) a = a ++ l.foldl (· ++ ·) "" := by
  induction l with
  | nil =>
    intro a
    simp
  | cons s rest ih =>
    intro a
    simp only [List.foldl_cons]
    rw [ih (a ++ s), ih ("" ++ s)]
    simp [String.append_assoc]

theorem string_join_cons (s : String) (l : List String) :
    String.join (s :: l) = s ++ String.join l := by
  simp only [String.join, List.foldl_cons]
  rw [string_foldl_append]
  simp

theorem flatten_list_strs (row : List String) :
    Emojify.flatten_list (row.map PyVal.str) = String.join row := by
  induction row with
  | nil =>
    simp [Emojify.flatten_list, String.join]
  | cons s rest ih =>
    simp only [List.map_cons, Emojify.flatten_list]
    rw [ih, string_join_cons]

theorem flatten_gridToPy (rows : List (List String)) :
    Emojify.flatten_list (gridToPy rows) =
      String.join (rows.map (fun row => String.join row ++ "\n")) := by
  induction rows with
  | nil =>
    simp [gridToPy, Emojify.flatten_list, String.join]
  | cons row rest ih =>
    simp only [gridToPy, List.map_cons, Emojify.flatten_list]
    rw [flatten_list_strs]
    rw [show Emojify.flatten_list (rest.map (fun r => PyVal.list (r.map PyVal.str))) =
        String.join (rest.map (fun r => String.join r ++ "\n")) from ih]
    rw [string_join_cons, String.append_assoc]

/-- C5: the code never raises `IncompleteConfigurationError` for an
unmapped tile: `Emoji.guild_name` on a tile name absent from the guild's
mapping raises a raw `KeyError`, and the same raw `KeyError` — not the
typed configuration error — is what `Tileset.to_mapping` propagates. -/
theorem guild_name_unmapped_tile_key_error :
    Emoji.guild_name (Emoji.mk "blank") unmappedTileset demoGuild =
      .error (.keyError "blank") ∧
    Tileset.to_mapping unmappedTileset [[Emoji.mk "blank"]] demoGuild =
      .error (.keyError "blank") := ⟨rfl, rfl⟩

/-- C6 (amended): with a non-empty first row, `Tileset.to_image` succeeds
and produces an RGBA canvas with transparent background whose width is the
FIRST row's tile count times the tile size — the tile size being the first
tile's image width — whose height is the row count times the tile size,
and which pastes the tile at row `r`, column `c` at pixel offset
`(c*tile_size, r*tile_size)`. -/
theorem to_image_geometry (size : String → Nat × Nat)
    (grid : List (List Emoji)) (row0 : List Emoji) (first : Emoji)
    (h0 : grid[0]? = some row0) (h00 : row0[0]? = some first) :
    ∃ img, Tileset.to_image size grid = .ok img ∧
      img.mode = "RGBA" ∧
      img.background = (0, 0, 0, 0) ∧
      img.width = row0.length * (size first.name).1 ∧
      img.height = grid.length * (size first.name).1 ∧
      ∀ r row, grid[r]? = some row → ∀ c e, row[c]? = some e →
        (e.name, c * (size first.name).1, r * (size first.name).1) ∈ img.pastes := by
  simp only [Tileset.to_image, h0, h00]
  refine ⟨_, rfl, rfl, rfl, rfl, rfl, ?_⟩
  intro r row hr c e hc
  simp only [List.mem_flatMap, List.mem_map]
  exact ⟨(r, row), List.mem_enum_iff_getElem?.mpr hr,
    (c, e), List.mem_enum_iff_getElem?.mpr hc, rfl⟩

theorem to_image_geometry_witness :
    raggedGrid[0]? = some [Emoji.mk "blank"] ∧
    (∃ img, Tileset.to_image size3 raggedGrid = .ok img ∧
      img.mode = "RGBA" ∧
      img.background = (0, 0, 0, 0) ∧
      img.width = [Emoji.mk "blank"].length * (size3 (Emoji.mk "blank").name).1 ∧
      img.height = raggedGrid.length * (size3 (Emoji.mk "blank").name).1 ∧
      ∀ r row, raggedGrid[r]? = some row → ∀ c e, row[c]? = some e →
        (e.name, c * (size3 (Emoji.mk "blank").name).1,
          r * (size3 (Emoji.mk "blank").name).1) ∈ img.pastes) :=
  ⟨rfl, to_image_geometry size3 raggedGrid [Emoji.mk "blank"] (Emoji.mk "blank") rfl rfl⟩

/-- C6 counterexample: on a grid whose first row has 1 tile and second row
3 tiles, with 3×3 tile images, the canvas comes out 3 pixels wide — the
first row's tile count times the tile size — although the maximal row
width is 3 tiles, so the claimed width `max(w0..wH-1) × tileSize` would be
9. -/
theorem to_image_width_not_max :
    Tileset.to_image size3 raggedGrid =
      .ok { mode := "RGBA", width := 1 * 3, height := 2 * 3,
            background := (0, 0, 0, 0),
            pastes := [("blank", 0, 0), ("blank", 0, 3), ("blank", 3, 3),
              ("blank", 6, 3)] } ∧
    (raggedGrid.map List.length).foldr Nat.max 0 = 3 ∧
    (1 * 3 : Nat) ≠ 3 * 3 :=
  ⟨rfl, by decide, by decide⟩

/-- C7 (amended): flattening a `to_mapping` result emits the rows as lines
in grid order, each row's tokens joined with no separator inside the row,
and one newline after EVERY row — including a trailing newline after the
last row, not only at interior row boundaries. -/
theorem render_text_joins_rows (ts : Tileset) (guild : Guild)
    (grid : List (List Emoji)) (rows : List (List String))
    (_hm : Tileset.to_mapping ts grid guild = .ok rows) :
    Emojify.flatten_list (gridToPy rows) =
      String.join (rows.map (fun row => String.join row ++ "\n")) :=
  flatten_gridToPy rows

theorem render_text_joins_rows_witness :
    Tileset.to_mapping mappedTileset [[Emoji.mk "blank"]] mappedGuild =
      .ok [["<:blank:5>"]] ∧
    Emojify.flatten_list (gridToPy [["<:blank:5>"]]) =
      String.join ([["<:blank:5>"]].map (fun row => String.join row ++ "\n")) :=
  ⟨rfl, render_text_joins_rows mappedTileset mappedGuild [[Emoji.mk "blank"]]
    [["<:blank:5>"]] rfl⟩

/-- C7 counterexample: the flattening of the one-row grid produced by
`to_mapping` ends in a newline — the separator also follows the last row,
contradicting the claimed absence of a trailing separator. -/
theorem render_text_trailing_newline :
    Tileset.to_mapping mappedTileset [[Emoji.mk "blank"]] mappedGuild =
      .ok [["<:blank:5>"]] ∧
    Emojify.flatten_list (gridToPy [["<:blank:5>"]]) = "<:blank:5>" ++ "\n" ∧
    ("<:blank:5>" ++ "\n" : String) ≠ "<:blank:5>" := by
  refine ⟨rfl, ?_, by decide⟩
  rw [flatten_gridToPy [["<:blank:5>"]]]
  rfl

/-- C8 (amended): `Font.load` raises `FileNotFoundError` when the font
asset is absent, and otherwise copies the decoded JSON fields onto the
font object verbatim — it performs no schema validation, so a structurally
malformed asset is accepted at load time instead of being rejected. -/
theorem font_load_no_validation (fonts : List (String × FontData)) (name : String) :
    (fonts.lookup name = none →
      Font.load fonts name = .error (.fileNotFoundError (name ++ ".json"))) ∧
    ∀ d, fonts.lookup name = some d →
      Font.load fonts name =
        .ok { name := name, font_height := d.font_height,
              lowercase_only := d.lowercase_only, characters := d.characters } := by
  constructor
  · intro h
    simp only [Font.load, h]
  · intro d h
    simp only [Font.load, h]

theorem font_load_no_validation_witness :
    Font.load [] "missing" = .error (.fileNotFoundError "missing.json") ∧
    Font.load
        [("empty", { font_height := none, lowercase_only := none, characters := none })]
        "empty" =
      .ok { name := "empty", font_height := none, lowercase_only := none,
            characters := none } :=
  ⟨(font_load_no_validation [] "missing").1 rfl,
   (font_load_no_validation
      [("empty", { font_height := none, lowercase_only := none, characters := none })]
      "empty").2
     { font_height := none, lowercase_only := none, characters := none } rfl⟩

/-- C8 counterexample: loading a font asset that lacks the height, the
lowercase flag and the characters map succeeds — `Font.load` returns the
object with those attributes simply missing instead of failing with any
malformed-asset error. -/
theorem font_load_accepts_malformed :
    Font.load
        [("bad", { font_height := none, lowercase_only := none, characters := none })]
        "bad" =
      .ok { name := "bad", font_height := none, lowercase_only := none,
            characters := none } := rfl

/-- C9 (amended): resolving a tileset for a guild fails with `KeyError`
when the tileset name has no entry in `REPO_IMG_URLS`, and with
`FileNotFoundError` when the per-guild mapping file is absent — two
distinct exception types rather than one shared error kind. -/
theorem tileset_init_errors (repo_img_urls : List (String × String))
    (emoji_names : List String)
    (config : List ((String × String) × List (String × String)))
    (name : String) (guild : Guild) :
    (repo_img_urls.lookup name = none →
      Tileset.init repo_img_urls emoji_names config name (some guild) =
        .error (.keyError name)) ∧
    ∀ url, repo_img_urls.lookup name = some url →
      config.lookup (toString guild.id, name) = none →
      Tileset.init repo_img_urls emoji_names config name (some guild) =
        .error (.fileNotFoundError (toString guild.id ++ "/" ++ name ++ ".json")) := by
  constructor
  · intro h
    simp only [Tileset.init, h]
  · intro url hu hc
    simp only [Tileset.init, hu, Tileset.load_guild_mappings, hc]

theorem tileset_init_errors_witness :
    Tileset.init [] ["blank"] [] "foo" (some demoGuild) = .error (.keyError "foo") ∧
    Tileset.init [("bar", "u")] ["blank"] [] "bar" (some demoGuild) =
      .error (.fileNotFoundError "1/bar.json") :=
  ⟨(tileset_init_errors [] ["blank"] [] "foo" demoGuild).1 rfl,
   (tileset_init_errors [("bar", "u")] ["blank"] [] "bar" demoGuild).2 "u" rfl rfl⟩

/-- C9 counterexample: the two missing-configuration failures raise
different exception types — `KeyError` for an unknown tileset name,
`FileNotFoundError` for a missing per-guild mapping file — not one shared
`AssetNotFound` kind. -/
theorem tileset_init_error_kinds_differ :
    Tileset.init [] ["blank"] [] "foo" (some demoGuild) = .error (.keyError "foo") ∧
    Tileset.init [("foo", "u")] ["blank"] [] "foo" (some demoGuild) =
      .error (.fileNotFoundError "1/foo.json") ∧
    (PyError.keyError "foo") ≠ (PyError.fileNotFoundError "1/foo.json") :=
  ⟨rfl, rfl, by decide⟩

/-- C10: `Tileset.to_image` reads the first element of the first row
unguarded, so every grid whose first row is empty makes it raise
`IndexError` instead of returning an image; in particular `_emojify` on
the empty text returns `font.font_height` empty rows, on which `to_image`
raises exactly that way. -/
theorem to_image_empty_first_row (size : String → Nat × Nat)
    (font : Font) (ts : Tileset) (hh : 0 < font.font_height) :
    (∀ grid : List (List Emoji), grid[0]? = some [] →
      Tileset.to_image size grid = .error .indexError) ∧
    ∃ grid, Emojify.emojify font ts [] = .ok grid ∧ grid[0]? = some [] ∧
      Tileset.to_image size grid = .error .indexError := by
  have hgen : ∀ grid : List (List Emoji), grid[0]? = some [] →
      Tileset.to_image size grid = .error .indexError := by
    intro grid h0
    simp only [Tileset.to_image, h0, List.getElem?_nil]
  have hempty : Emojify.emojify font ts [] =
      .ok (List.replicate font.font_height []) := by
    rw [emojify_eq_foldlM]
    have hnilfold : Emojify.folded font [] = [] := by
      cases hb : font.lowercase_only <;> simp [Emojify.folded, hb]
    rw [hnilfold]
    rfl
  have h0 : (List.replicate font.font_height ([] : List Emoji))[0]? = some [] := by
    rw [List.getElem?_replicate, if_pos hh]
  exact ⟨hgen, List.replicate font.font_height [], hempty, h0, hgen _ h0⟩

theorem to_image_empty_first_row_witness :
    (0 : Nat) < demoFont.font_height ∧
    (∃ grid, Emojify.emojify demoFont demoTileset [] = .ok grid ∧
      grid[0]? = some [] ∧
      Tileset.to_image size3 grid = .error .indexError) :=
  ⟨by decide,
   (to_image_empty_first_row size3 demoFont demoTileset (by decide)).2⟩
